import Mathlib

/-!
Verification of the queue protocol library (`queue_utils.py`) of the
Task-Queue (tq) repository, together with the producer append path of
`tq.py` (`TaskQueueShell.default`).

The queue file is modelled as an optional list of lines (`none` = the file
does not exist).  A line is either
* `QLine.structured o`: a line whose stripped text starts with a brace and
  which `json.loads` decodes successfully; `o` records the decoded fields
  the program touches (a key that is absent and a key bound to JSON `null`
  are both modelled as `Option.none`, since the program treats them alike
  through `dict.get`), or
* `QLine.text s`: any other line, carried verbatim (blank lines, legacy
  colon-separated lines, and lines that fail JSON decoding).

Python's `int(...)` on a string is modelled by `pyInt` (optional sign and
decimal digits after stripping whitespace), `str.split(':', 3)` by
`pySplitColon3`, `shlex.quote` by `shlexQuote`, and `json.dumps` of a task
dict by `dumpsTask` (CPython emits keys in dict insertion order; here a
fixed canonical order is used).  `list.sort(key=...)` is a stable ascending
sort; a stable sort's output is uniquely determined by the input, and it is
modelled by the stable insertion sort `sortTasks`, whose characterising
properties (permutation, sortedness, preservation of each equal-priority
subsequence) are proved below.
-/

namespace TQ

/-- A parsed task record: priority `p`, grace `g`, tag `t`, optional working
directory `wd`, optional git snapshot `git`, command `c`.  Mirrors the dict
produced by `parse_line` in `queue_utils.py`. -/
structure Task where
  p : Int
  g : Int
  t : String
  wd : Option String
  git : Option String
  c : String
deriving DecidableEq, Repr

/-- The fields of a JSON object line that the program reads.  `none` models
"key absent or bound to `null`". -/
structure JsonObj where
  p : Option Int
  g : Option Int
  t : Option String
  wd : Option String
  git : Option String
  c : Option String
deriving DecidableEq, Repr

/-- One line of the queue file. -/
inductive QLine where
  | structured (o : JsonObj)
  | text (s : String)
deriving DecidableEq, Repr

/-- Digit-string evaluation: `digitsValAux cs n` folds decimal digits onto
accumulator `n`, failing on any non-digit. -/
def digitsValAux : List Char → Nat → Option Nat
  | [], n => some n
  | c :: cs, n => if c.isDigit then digitsValAux cs (10 * n + (c.toNat - 48)) else none

/-- Model of Python `str.strip()`: drop whitespace from both ends. -/
def pyStrip (s : String) : String :=
  String.mk (((s.toList.dropWhile Char.isWhitespace).reverse.dropWhile
    Char.isWhitespace).reverse)

/-- Model of Python `int(s)` for a string: strip whitespace, optional sign,
then decimal digits (underscore separators and non-ASCII digits are out of
scope). -/
def pyInt (s : String) : Option Int :=
  match (pyStrip s).toList with
  | [] => none
  | c :: cs =>
      if c = '-' then
        match cs with
        | [] => none
        | _ => (digitsValAux cs 0).map (fun n => -(n : Int))
      else if c = '+' then
        match cs with
        | [] => none
        | _ => (digitsValAux cs 0).map (fun n => (n : Int))
      else (digitsValAux (c :: cs) 0).map (fun n => (n : Int))

/-- `pySplitAux k acc cs`: split `cs` on colons, at most `k` more splits,
`acc` holding the current field reversed.  Models `str.split(':', k)`. -/
def pySplitAux : Nat → List Char → List Char → List String
  | _, acc, [] => [String.mk acc.reverse]
  | 0, acc, c :: cs => pySplitAux 0 (c :: acc) cs
  | Nat.succ k, acc, c :: cs =>
      if c = ':' then String.mk acc.reverse :: pySplitAux k [] cs
      else pySplitAux (Nat.succ k) (c :: acc) cs

/-- Model of Python `s.split(':', 3)`. -/
def pySplitColon3 (s : String) : List String :=
  pySplitAux 3 [] s.toList

/-- `parse_line` from `queue_utils.py`.  A structured line is accepted when
its `c` key is present, with defaults `p = 100`, `g = 180`, `t = "default"`
filled in.  Any other line is stripped, rejected if blank, and otherwise
parsed as the legacy colon format `Prio:Grace:Tag[:Cmd]` (a stripped line
that starts with a brace but failed JSON decoding also reaches the legacy
branch in the source, where `int(...)` on its first field fails, so it is
likewise rejected: this falls out of `pyInt` here). -/
def parse_line : QLine → Option Task
  | .structured o =>
      match o.c with
      | none => none
      | some cmd =>
          some { p := o.p.getD 100, g := o.g.getD 180, t := o.t.getD "default",
                 wd := o.wd, git := o.git, c := cmd }
  | .text s =>
      let st := pyStrip s
      if st = "" then none
      else
        let parts := pySplitColon3 st
        if parts.length < 3 then none
        else
          match pyInt parts[0]!, pyInt parts[1]! with
          | some pv, some gv =>
              let tagv := parts[2]!
              let cmdv := if 3 < parts.length then parts[3]! else tagv
              some { p := pv, g := gv, t := tagv, wd := none, git := none, c := cmdv }
          | _, _ => none

/-- The single-quote character, as used by `shlex.quote`. -/
def sq : String := String.singleton (Char.ofNat 39)

/-- Characters `shlex.quote` considers safe under ASCII: letters, digits,
underscore, at sign, percent, plus, equals, colon, comma, dot, slash,
hyphen (the complement of its unsafe-character pattern). -/
def shqSafeChar (c : Char) : Bool :=
  c.isAlphanum || c = '_' || c = '@' || c = '%' || c = '+' || c = '=' ||
    c = ':' || c = ',' || c = '.' || c = '/' || c = '-'

/-- The five-character escape `shlex.quote` substitutes for a single quote
inside a quoted string. -/
def sqEscape : String :=
  sq ++ String.singleton (Char.ofNat 34) ++ sq ++ String.singleton (Char.ofNat 34) ++ sq

/-- Model of `shlex.quote`; the `str.replace` of the source, whose pattern
is the one-character string `sq`, is modelled per character. -/
def shlexQuote (s : String) : String :=
  if s = "" then sq ++ sq
  else if s.toList.all shqSafeChar then s
  else
    sq ++ String.join (s.toList.map (fun c =>
      if c = Char.ofNat 39 then sqEscape else String.singleton c)) ++ sq

/-- JSON string escaping for `dumpsTask` (backslash and double quote;
control-character escapes are out of scope for the inputs considered). -/
def jsonEscapeChar (c : Char) : String :=
  if c = Char.ofNat 34 then String.singleton '\\' ++ String.singleton (Char.ofNat 34)
  else if c = '\\' then String.singleton '\\' ++ String.singleton '\\'
  else String.singleton c

/-- A JSON string literal. -/
def jsonStr (s : String) : String :=
  String.singleton (Char.ofNat 34) ++ String.join (s.toList.map jsonEscapeChar) ++
    String.singleton (Char.ofNat 34)

/-- Model of `json.dumps` on a task dict, with a fixed canonical key order
(`p, g, t, wd, git, c`); the `git` key is omitted when absent, matching a
legacy-parsed dict, which never contains it. -/
def dumpsTask (t : Task) : String :=
  "\x7b" ++ jsonStr "p" ++ ": " ++ toString t.p ++ ", " ++
    jsonStr "g" ++ ": " ++ toString t.g ++ ", " ++
    jsonStr "t" ++ ": " ++ jsonStr t.t ++ ", " ++
    jsonStr "wd" ++ ": " ++ (match t.wd with | none => "null" | some w => jsonStr w) ++
    (match t.git with | none => "" | some h => ", " ++ jsonStr "git" ++ ": " ++ jsonStr h) ++
    ", " ++ jsonStr "c" ++ ": " ++ jsonStr t.c ++ "\x7d"

/-- The seven `NAME=value` lines `pop_best_task` prints on success, in
source order. -/
def outputVars (best : Task) : List String :=
  [ "TQ_PRIO=" ++ toString best.p,
    "TQ_GRACE=" ++ toString best.g,
    "TQ_TAG=" ++ shlexQuote best.t,
    "TQ_WORKDIR=" ++ shlexQuote (best.wd.getD ""),
    "TQ_GIT_HASH=" ++ shlexQuote (best.git.getD ""),
    "TQ_CMD=" ++ shlexQuote best.c,
    "TQ_JSON=" ++ shlexQuote (dumpsTask best) ]

/-- The structured line `json.dumps` produces for a task when the remaining
queue is rewritten. -/
def taskToObj (t : Task) : JsonObj :=
  { p := some t.p, g := some t.g, t := some t.t, wd := t.wd, git := t.git, c := some t.c }

/-- Stable insertion of a task into a list, placing `x` after exactly the
elements of strictly smaller priority. -/
def insertTask (x : Task) : List Task → List Task
  | [] => [x]
  | y :: ys => if y.p < x.p then y :: insertTask x ys else x :: y :: ys

/-- Stable ascending-by-priority sort, modelling
`valid_tasks.sort(key=lambda x: x['p'])` (Python `list.sort` is stable, and
a stable ascending sort's output is unique). -/
def sortTasks : List Task → List Task
  | [] => []
  | x :: xs => insertTask x (sortTasks xs)

/-- The result of one run of `pop_best_task`: the queue file afterwards,
the record popped (`best` in the source), and the stdout lines. -/
structure PopResult where
  newFile : Option (List QLine)
  best : Option Task
  stdout : List String
deriving DecidableEq, Repr

/-- `pop_best_task` from `queue_utils.py`: missing file means no action;
otherwise parse every line, return with no side effect when no line parses,
else stably sort by priority, pop the first task, rewrite the file with the
remaining tasks re-encoded as structured lines, and print the shell
variables of the popped task. -/
def pop_best_task : Option (List QLine) → PopResult
  | none => { newFile := none, best := none, stdout := [] }
  | some lines =>
      match sortTasks (lines.filterMap parse_line) with
      | [] => { newFile := some lines, best := none, stdout := [] }
      | best :: rest =>
          { newFile := some (rest.map (fun t => QLine.structured (taskToObj t))),
            best := some best,
            stdout := outputVars best }

/-- The scan of `get_min_priority`: fold over the lines, lowering the
accumulator whenever a parseable task has strictly smaller priority. -/
def minScan : List QLine → Int → Int
  | [], acc => acc
  | l :: ls, acc =>
      match parse_line l with
      | some t => if t.p < acc then minScan ls t.p else minScan ls acc
      | none => minScan ls acc

/-- The result of one run of `get_min_priority`: the queue file afterwards
and the stdout lines. -/
structure PeekResult where
  newFile : Option (List QLine)
  stdout : List String
deriving DecidableEq, Repr

/-- `get_min_priority` from `queue_utils.py`: prints the sentinel `99999`
for a missing file, else scans with the sentinel as initial accumulator.
The file is only ever opened for reading, so it is returned unchanged. -/
def get_min_priority : Option (List QLine) → PeekResult
  | none => { newFile := none, stdout := [toString (99999 : Int)] }
  | some lines => { newFile := some lines, stdout := [toString (minScan lines 99999)] }

/-- The result of one run of the `queue_utils.py` boundary process. -/
structure MainResult where
  exitCode : Nat
  stdout : List String
  newFile : Option (List QLine)
deriving DecidableEq, Repr

/-- The `__main__` block of `queue_utils.py`: with fewer than two
arguments after the script name it exits with status 1; otherwise it runs
the requested action and falls off the end of the script, so the process
exit status is 0 on every path, popped record or not. -/
def queue_utils_main (args : List String) (file : Option (List QLine)) : MainResult :=
  match args with
  | action :: _qpath :: _ =>
      if action = "pop" then
        let r := pop_best_task file
        { exitCode := 0, stdout := r.stdout, newFile := r.newFile }
      else if action = "peek_prio" then
        let r := get_min_priority file
        { exitCode := 0, stdout := r.stdout, newFile := r.newFile }
      else { exitCode := 0, stdout := [], newFile := file }
  | _ => { exitCode := 1, stdout := [], newFile := file }

/-- File-system and lock events, for tracing which operations a code path
performs on the queue file. -/
inductive FsEvent where
  | openRead | openWrite | openAppend | readFile | writeFile | flockEx | flockUn | closeFile
deriving DecidableEq, Repr

/-- The sequence of queue-file operations `pop_best_task` performs: an
existence check (no event), a read-mode open/read/close, and, when a task
is popped, a write-mode open/write/close.  The source never calls
`fcntl.flock` (it does not even import `fcntl`). -/
def pop_best_trace (file : Option (List QLine)) : List FsEvent :=
  match file with
  | none => []
  | some lines =>
      if (lines.filterMap parse_line).isEmpty then
        [.openRead, .readFile, .closeFile]
      else
        [.openRead, .readFile, .closeFile, .openWrite, .writeFile, .closeFile]

/-- The sequence of queue-file operations the producer append in
`TaskQueueShell.default` (`tq.py`) performs: append-mode open, exclusive
`flock`, write, unlock, close. -/
def producer_append_trace : List FsEvent :=
  [.openAppend, .flockEx, .writeFile, .flockUn, .closeFile]

/-- The queue file after the interleaving in which a producer appends line
`r` (under its lock) between `pop_best_task`'s read of the file and its
write-back.  The pop side holds no lock, so nothing prevents this
interleaving: its write-back is computed from the stale snapshot alone and,
when it pops a task, truncates the file and overwrites the append. -/
def interleavedAppendDuringPop (lines : List QLine) (r : QLine) : Option (List QLine) :=
  match sortTasks (lines.filterMap parse_line) with
  | [] => some (lines ++ [r])
  | _best :: rest => some (rest.map (fun t => QLine.structured (taskToObj t)))

/-- Demo task used by witnesses: `5:60` with tag `a` and command `first`. -/
def demoTask1 : Task := { p := 5, g := 60, t := "a", wd := none, git := none, c := "first" }

/-- Demo task used by witnesses: priority 3, submitted later tasks share it. -/
def demoTask2 : Task := { p := 3, g := 30, t := "b", wd := some "/w", git := some "h1", c := "second" }

/-- Demo task with the same priority as `demoTask2` but arriving later. -/
def demoTask3 : Task := { p := 3, g := 90, t := "c", wd := none, git := none, c := "third" }

/-- A demo queue file: a parseable structured line, a tied-priority pair, a
legacy line and an unparseable line. -/
def demoLines : List QLine :=
  [ QLine.structured (taskToObj demoTask1),
    QLine.structured (taskToObj demoTask2),
    QLine.text "not a task",
    QLine.structured (taskToObj demoTask3) ]

/-- Demo task mirroring the repository's own stdout-protocol test record. -/
def strictTask : Task :=
  { p := 10, g := 180, t := "strict_test", wd := none, git := none, c := "echo hi" }

/-- Demo task whose priority exceeds the sentinel 99999. -/
def sentinelTask : Task :=
  { p := 100000, g := 60, t := "x", wd := none, git := none, c := "run" }

/-- The projection of a `NAME=value` stdout line onto its name. -/
def varName (s : String) : String :=
  String.mk (s.toList.takeWhile (fun c => c ≠ '='))

/-  ------------------------------------------------------------------
    Helper lemmas
    ------------------------------------------------------------------ -/

theorem insertTask_perm (x : Task) (m : List Task) : (insertTask x m).Perm (x :: m) := by
  induction m with
  | nil => simp [insertTask]
  | cons y ys ih =>
      by_cases h : y.p < x.p
      · simp only [insertTask, if_pos h]
        exact (ih.cons y).trans (List.Perm.swap x y ys)
      · simp [insertTask, if_neg h]

theorem sortTasks_perm (l : List Task) : (sortTasks l).Perm l := by
  induction l with
  | nil => simp [sortTasks]
  | cons x xs ih =>
      exact (insertTask_perm x (sortTasks xs)).trans (ih.cons x)

theorem mem_insertTask {z x : Task} {m : List Task} :
    z ∈ insertTask x m ↔ z = x ∨ z ∈ m := by
  rw [(insertTask_perm x m).mem_iff]
  simp

theorem insertTask_pairwise {x : Task} {m : List Task}
    (h : m.Pairwise (fun a b => a.p ≤ b.p)) :
    (insertTask x m).Pairwise (fun a b => a.p ≤ b.p) := by
  induction m with
  | nil => simp [insertTask]
  | cons y ys ih =>
      rw [List.pairwise_cons] at h
      obtain ⟨hy, hys⟩ := h
      by_cases hlt : y.p < x.p
      · simp only [insertTask, if_pos hlt]
        rw [List.pairwise_cons]
        refine ⟨fun z hz => ?_, ih hys⟩
        rcases mem_insertTask.mp hz with rfl | hzys
        · omega
        · exact hy z hzys
      · simp only [insertTask, if_neg hlt]
        rw [List.pairwise_cons]
        refine ⟨fun z hz => ?_, by rw [List.pairwise_cons]; exact ⟨hy, hys⟩⟩
        rcases List.mem_cons.mp hz with rfl | hzys
        · omega
        · have := hy z hzys
          omega

theorem sortTasks_sorted (l : List Task) :
    (sortTasks l).Pairwise (fun a b => a.p ≤ b.p) := by
  induction l with
  | nil => simp [sortTasks]
  | cons x xs ih => exact insertTask_pairwise ih

theorem filter_insertTask (q : Int) (x : Task) (m : List Task) :
    (insertTask x m).filter (fun t => decide (t.p = q)) =
      (x :: m).filter (fun t => decide (t.p = q)) := by
  induction m with
  | nil => rfl
  | cons y ys ih =>
      by_cases hlt : y.p < x.p
      · simp only [insertTask, if_pos hlt]
        by_cases hx : x.p = q <;> by_cases hy : y.p = q
        · omega
        · simp [List.filter_cons, hx, hy] at ih ⊢
          exact ih
        · simp [List.filter_cons, hx, hy] at ih ⊢
          exact ih
        · simp [List.filter_cons, hx, hy] at ih ⊢
          exact ih
      · simp [insertTask, if_neg hlt]

theorem sortTasks_filter (q : Int) (l : List Task) :
    (sortTasks l).filter (fun t => decide (t.p = q)) =
      l.filter (fun t => decide (t.p = q)) := by
  induction l with
  | nil => rfl
  | cons x xs ih =>
      show (insertTask x (sortTasks xs)).filter _ = _
      rw [filter_insertTask]
      by_cases hx : x.p = q
      · simp [List.filter_cons, hx, ih]
      · simp [List.filter_cons, hx, ih]

theorem sortTasks_eq_nil_iff {l : List Task} : sortTasks l = [] ↔ l = [] := by
  constructor
  · intro h
    have := (sortTasks_perm l).length_eq
    rw [h] at this
    exact List.length_eq_zero.mp this.symm
  · intro h
    subst h
    rfl

theorem find_eq_head_filter (pb : Task → Bool) (l : List Task) :
    l.find? pb = (l.filter pb).head? := by
  induction l with
  | nil => rfl
  | cons x xs ih =>
      by_cases hx : pb x = true
      · rw [List.find?_cons_of_pos _ hx, List.filter_cons, if_pos hx]
        rfl
      · rw [List.find?_cons_of_neg _ hx, List.filter_cons, if_neg hx]
        exact ih

/-- `json.dumps` followed by `parse_line` restores the popped-and-rewritten
task exactly. -/
theorem parse_line_taskToObj (t : Task) :
    parse_line (QLine.structured (taskToObj t)) = some t := rfl

theorem filterMap_parse_map_structured (rest : List Task) :
    (rest.map (fun t => QLine.structured (taskToObj t))).filterMap parse_line = rest := by
  rw [List.filterMap_map]
  have h : (parse_line ∘ fun t => QLine.structured (taskToObj t)) = some := by
    funext t
    exact parse_line_taskToObj t
  rw [h, List.filterMap_some]

/-- Shape of a successful pop: the stably sorted task list is nonempty and
the result is assembled from its head and tail. -/
theorem pop_some_spec (lines : List QLine)
    (hne : lines.filterMap parse_line ≠ []) :
    ∃ b rest, sortTasks (lines.filterMap parse_line) = b :: rest ∧
      pop_best_task (some lines) =
        { newFile := some (rest.map (fun t => QLine.structured (taskToObj t))),
          best := some b, stdout := outputVars b } := by
  cases h : sortTasks (lines.filterMap parse_line) with
  | nil => exact absurd (sortTasks_eq_nil_iff.mp h) hne
  | cons b rest =>
      refine ⟨b, rest, rfl, ?_⟩
      simp only [pop_best_task, h]

theorem minScan_le_spec (ls : List QLine) (acc : Int) :
    minScan ls acc ∈ acc :: (ls.filterMap parse_line).map (fun t => t.p) ∧
      ∀ x ∈ acc :: (ls.filterMap parse_line).map (fun t => t.p), minScan ls acc ≤ x := by
  induction ls generalizing acc with
  | nil => simp [minScan]
  | cons l ls ih =>
      cases hp : parse_line l with
      | none =>
          simp only [minScan, hp, List.filterMap_cons]
          exact ih acc
      | some t =>
          simp only [minScan, hp, List.filterMap_cons, List.map_cons]
          by_cases hlt : t.p < acc
          · simp only [if_pos hlt]
            obtain ⟨hmem, hle⟩ := ih t.p
            constructor
            · rcases List.mem_cons.mp hmem with h | h
              · rw [h]
                exact List.mem_cons_of_mem _ (List.mem_cons_self _ _)
              · exact List.mem_cons_of_mem _ (List.mem_cons_of_mem _ h)
            · intro x hx
              rcases List.mem_cons.mp hx with h | hx
              · subst h
                have := hle t.p (List.mem_cons_self _ _)
                omega
              · exact hle x hx
          · simp only [if_neg hlt]
            obtain ⟨hmem, hle⟩ := ih acc
            constructor
            · rcases List.mem_cons.mp hmem with h | h
              · rw [h]
                exact List.mem_cons_self _ _
              · exact List.mem_cons_of_mem _ (List.mem_cons_of_mem _ h)
            · intro x hx
              rcases List.mem_cons.mp hx with h | hx
              · rw [h]
                exact hle acc (List.mem_cons_self _ _)
              · rcases List.mem_cons.mp hx with h | hx
                · rw [h]
                  have := hle acc (List.mem_cons_self _ _)
                  omega
                · exact hle x (List.mem_cons_of_mem _ hx)

theorem minScan_no_valid {ls : List QLine} (h : ls.filterMap parse_line = [])
    (acc : Int) : minScan ls acc = acc := by
  induction ls with
  | nil => rfl
  | cons l ls ih =>
      cases hp : parse_line l with
      | none =>
          simp only [List.filterMap_cons, hp] at h
          simp only [minScan, hp]
          exact ih h
      | some t => simp [List.filterMap_cons, hp] at h

/-  ------------------------------------------------------------------
    Claim theorems
    ------------------------------------------------------------------ -/

/-- C1: for every queue file with at least one parseable record,
`pop_best_task` returns the record of globally minimum priority, and among
records sharing that minimum it returns the one appearing earliest in the
file (the first record the priority-filtered scan finds). -/
theorem pop_best_returns_min_fifo (lines : List QLine)
    (hne : lines.filterMap parse_line ≠ []) :
    ∃ b, (pop_best_task (some lines)).best = some b ∧
      b ∈ lines.filterMap parse_line ∧
      (∀ t ∈ lines.filterMap parse_line, b.p ≤ t.p) ∧
      (lines.filterMap parse_line).find? (fun t => decide (t.p = b.p)) = some b := by
  obtain ⟨b, rest, hsort, hpop⟩ := pop_some_spec lines hne
  refine ⟨b, by rw [hpop], ?_, ?_, ?_⟩
  · have hb : b ∈ sortTasks (lines.filterMap parse_line) := by
      rw [hsort]
      exact List.mem_cons_self _ _
    exact (sortTasks_perm _).mem_iff.mp hb
  · intro t ht
    have ht' : t ∈ sortTasks (lines.filterMap parse_line) :=
      (sortTasks_perm _).mem_iff.mpr ht
    rw [hsort] at ht'
    rcases List.mem_cons.mp ht' with h | h
    · exact le_of_eq (congrArg Task.p h.symm)
    · have hs := sortTasks_sorted (lines.filterMap parse_line)
      rw [hsort] at hs
      exact (List.pairwise_cons.mp hs).1 t h
  · rw [find_eq_head_filter, ← sortTasks_filter b.p, hsort, List.filter_cons,
      if_pos (by simp)]
    rfl

/-- C1 witness: on a demo queue with a tied minimum priority. -/
theorem pop_best_returns_min_fifo_witness :
    ∃ b, (pop_best_task (some demoLines)).best = some b ∧
      b ∈ demoLines.filterMap parse_line ∧
      (∀ t ∈ demoLines.filterMap parse_line, b.p ≤ t.p) ∧
      (demoLines.filterMap parse_line).find? (fun t => decide (t.p = b.p)) = some b :=
  pop_best_returns_min_fifo demoLines (by decide)

/-- C2: a successful pop removes exactly one parseable record (the popped
one), and the remaining records of equal priority keep their relative
order: for every priority `q` the `q`-priority subsequence of the new file
is an order-preserving sublist of the old one. -/
theorem pop_best_removes_exactly_one (lines : List QLine)
    (hne : lines.filterMap parse_line ≠ []) :
    ∃ b newLines, (pop_best_task (some lines)).best = some b ∧
      (pop_best_task (some lines)).newFile = some newLines ∧
      (newLines.filterMap parse_line).length + 1 = (lines.filterMap parse_line).length ∧
      (b :: newLines.filterMap parse_line).Perm (lines.filterMap parse_line) ∧
      ∀ q : Int,
        ((newLines.filterMap parse_line).filter (fun t => decide (t.p = q))).Sublist
          ((lines.filterMap parse_line).filter (fun t => decide (t.p = q))) := by
  obtain ⟨b, rest, hsort, hpop⟩ := pop_some_spec lines hne
  have hperm : (b :: rest).Perm (lines.filterMap parse_line) := by
    rw [← hsort]
    exact sortTasks_perm _
  refine ⟨b, rest.map (fun t => QLine.structured (taskToObj t)),
    by rw [hpop], by rw [hpop], ?_, ?_, ?_⟩
  · rw [filterMap_parse_map_structured]
    have := hperm.length_eq
    simpa using this
  · rw [filterMap_parse_map_structured]
    exact hperm
  · intro q
    rw [filterMap_parse_map_structured]
    have h1 : (rest.filter (fun t => decide (t.p = q))).Sublist
        ((b :: rest).filter (fun t => decide (t.p = q))) :=
      (List.sublist_cons_self b rest).filter _
    rw [← hsort, sortTasks_filter] at h1
    exact h1

/-- C2 witness: on the demo queue. -/
theorem pop_best_removes_exactly_one_witness :
    ∃ b newLines, (pop_best_task (some demoLines)).best = some b ∧
      (pop_best_task (some demoLines)).newFile = some newLines ∧
      (newLines.filterMap parse_line).length + 1 = (demoLines.filterMap parse_line).length ∧
      (b :: newLines.filterMap parse_line).Perm (demoLines.filterMap parse_line) ∧
      ∀ q : Int,
        ((newLines.filterMap parse_line).filter (fun t => decide (t.p = q))).Sublist
          ((demoLines.filterMap parse_line).filter (fun t => decide (t.p = q))) :=
  pop_best_removes_exactly_one demoLines (by decide)

/-- C3: `pop_best_task` performs its whole read-modify-write without ever
acquiring a file lock, while the producer append does take an exclusive
`flock`; in the interleaving where a producer appends between the pop's
read and its write-back, the rewrite is computed from the stale snapshot
alone, and the appended (parseable) record is absent from the resulting
file — it is lost.  This contradicts the claimed lock protocol. -/
theorem pop_unlocked_interleaved_append_lost :
    FsEvent.flockEx ∉ pop_best_trace (some [QLine.structured (taskToObj demoTask1)]) ∧
      FsEvent.flockEx ∈ producer_append_trace ∧
      interleavedAppendDuringPop [QLine.structured (taskToObj demoTask1)]
          (QLine.structured (taskToObj demoTask2)) = some [] ∧
      parse_line (QLine.structured (taskToObj demoTask2)) = some demoTask2 ∧
      demoTask2 ∉ ([] : List QLine).filterMap parse_line := by decide

/-- C4 counterexample: invoking the boundary process with action `pop` on
an existing queue file with zero parseable records writes nothing to
standard output but terminates with exit status 0, i.e. success — not the
claimed non-success status. -/
theorem pop_empty_queue_exits_success_cex :
    queue_utils_main ["pop", "tasks.queue"] (some []) =
      { exitCode := 0, stdout := [], newFile := some [] } := rfl

/-- C4 amended: the `pop` action always exits with status 0; the presence
of a popped record is signalled by the standard output being nonempty, not
by the exit status. -/
theorem pop_exit_always_success_stdout_signals (qpath : String)
    (file : Option (List QLine)) :
    (queue_utils_main ["pop", qpath] file).exitCode = 0 ∧
      ((queue_utils_main ["pop", qpath] file).stdout = [] ↔
        (file.getD []).filterMap parse_line = []) := by
  cases file with
  | none => exact ⟨rfl, by simp [queue_utils_main, pop_best_task]⟩
  | some lines =>
      refine ⟨rfl, ?_⟩
      cases hs : sortTasks (lines.filterMap parse_line) with
      | nil =>
          have hval := sortTasks_eq_nil_iff.mp hs
          simp [queue_utils_main, pop_best_task, sortTasks, hs, hval]
      | cons b rest =>
          have hval : lines.filterMap parse_line ≠ [] := by
            intro h0
            rw [h0] at hs
            exact absurd hs (by simp [sortTasks])
          simp [queue_utils_main, pop_best_task, hs, outputVars, hval]

/-- C4 witness: instantiation on a demo queue with parseable records. -/
theorem pop_exit_always_success_stdout_signals_witness :
    (queue_utils_main ["pop", "q"] (some demoLines)).exitCode = 0 ∧
      ((queue_utils_main ["pop", "q"] (some demoLines)).stdout = [] ↔
        ((some demoLines).getD []).filterMap parse_line = []) :=
  pop_exit_always_success_stdout_signals "q" (some demoLines)

/-- C5 counterexample: a successful pop writes exactly seven `NAME=value`
assignments — `TQ_PRIO`, `TQ_GRACE`, `TQ_TAG`, `TQ_WORKDIR`, `TQ_GIT_HASH`,
`TQ_CMD`, `TQ_JSON` — so no assignment for a log path exists, contradicting
the claimed eight-field coverage. -/
theorem pop_stdout_no_logpath_cex :
    (pop_best_task (some [QLine.structured (taskToObj strictTask)])).stdout.map varName =
        ["TQ_PRIO", "TQ_GRACE", "TQ_TAG", "TQ_WORKDIR", "TQ_GIT_HASH", "TQ_CMD", "TQ_JSON"] ∧
      (pop_best_task (some [QLine.structured (taskToObj strictTask)])).stdout.length = 7 := by
  decide

/-- C5 amended: on success, standard output is exactly the seven
assignments for priority, grace, tag, workdir, git snapshot, command, and
the structured re-encoding of the record, in that order, with the
string-valued fields shell-quoted; there is no log-path assignment. -/
theorem pop_stdout_seven_assignments (lines : List QLine) (b : Task)
    (h : (pop_best_task (some lines)).best = some b) :
    (pop_best_task (some lines)).stdout =
      ["TQ_PRIO=" ++ toString b.p, "TQ_GRACE=" ++ toString b.g,
       "TQ_TAG=" ++ shlexQuote b.t, "TQ_WORKDIR=" ++ shlexQuote (b.wd.getD ""),
       "TQ_GIT_HASH=" ++ shlexQuote (b.git.getD ""), "TQ_CMD=" ++ shlexQuote b.c,
       "TQ_JSON=" ++ shlexQuote (dumpsTask b)] ∧
      (pop_best_task (some lines)).stdout.length = 7 := by
  cases hs : sortTasks (lines.filterMap parse_line) with
  | nil =>
      exfalso
      simp [pop_best_task, hs] at h
  | cons bb rest =>
      have hb : bb = b := by
        simpa [pop_best_task, hs] using h
      subst hb
      simp [pop_best_task, hs, outputVars]

/-- C5 witness: instantiation on a single-record queue. -/
theorem pop_stdout_seven_assignments_witness :
    (pop_best_task (some [QLine.structured (taskToObj strictTask)])).stdout =
      ["TQ_PRIO=" ++ toString strictTask.p, "TQ_GRACE=" ++ toString strictTask.g,
       "TQ_TAG=" ++ shlexQuote strictTask.t,
       "TQ_WORKDIR=" ++ shlexQuote (strictTask.wd.getD ""),
       "TQ_GIT_HASH=" ++ shlexQuote (strictTask.git.getD ""),
       "TQ_CMD=" ++ shlexQuote strictTask.c,
       "TQ_JSON=" ++ shlexQuote (dumpsTask strictTask)] ∧
      (pop_best_task (some [QLine.structured (taskToObj strictTask)])).stdout.length = 7 :=
  pop_stdout_seven_assignments _ _ rfl

/-- C6 counterexample: on a queue whose only parseable record has priority
100000, `get_min_priority` prints the sentinel 99999 instead of the actual
minimum 100000 — the scan's accumulator starts at the sentinel and is only
lowered, never raised. -/
theorem peek_min_sentinel_cap_cex :
    (get_min_priority (some [QLine.structured (taskToObj sentinelTask)])).stdout
        = [toString (99999 : Int)] ∧
      [QLine.structured (taskToObj sentinelTask)].filterMap parse_line = [sentinelTask] ∧
      sentinelTask.p = 100000 ∧
      (get_min_priority (some [QLine.structured (taskToObj sentinelTask)])).stdout
        ≠ [toString (100000 : Int)] := by decide

/-- C6 amended: `get_min_priority` prints the minimum of the sentinel
99999 and the priorities of all parseable records; this equals the true
minimum priority exactly when some parseable record has priority at most
99999. -/
theorem get_min_outputs_capped_min (lines : List QLine) :
    ∃ v : Int, (get_min_priority (some lines)).stdout = [toString v] ∧
      v ∈ (99999 : Int) :: (lines.filterMap parse_line).map (fun t => t.p) ∧
      ∀ x ∈ (99999 : Int) :: (lines.filterMap parse_line).map (fun t => t.p), v ≤ x := by
  obtain ⟨hmem, hle⟩ := minScan_le_spec lines 99999
  exact ⟨minScan lines 99999, rfl, hmem, hle⟩

/-- C6 witness: instantiation on the demo queue. -/
theorem get_min_outputs_capped_min_witness :
    ∃ v : Int, (get_min_priority (some demoLines)).stdout = [toString v] ∧
      v ∈ (99999 : Int) :: (demoLines.filterMap parse_line).map (fun t => t.p) ∧
      ∀ x ∈ (99999 : Int) :: (demoLines.filterMap parse_line).map (fun t => t.p), v ≤ x :=
  get_min_outputs_capped_min demoLines

/-- C7: when zero parseable records exist (missing file, empty file, or no
line parses), `pop_best_task` pops nothing, prints nothing, and leaves the
queue file exactly as it was, unparseable lines included. -/
theorem pop_no_valid_no_side_effect (file : Option (List QLine))
    (h : file = none ∨ ∃ lines, file = some lines ∧ lines.filterMap parse_line = []) :
    (pop_best_task file).newFile = file ∧ (pop_best_task file).best = none ∧
      (pop_best_task file).stdout = [] := by
  rcases h with rfl | ⟨lines, rfl, hval⟩
  · exact ⟨rfl, rfl, rfl⟩
  · have h0 : sortTasks (lines.filterMap parse_line) = [] := by
      rw [hval]
      rfl
    simp [pop_best_task, h0]

/-- C7 witness: a queue holding only an unparseable line is untouched. -/
theorem pop_no_valid_no_side_effect_witness :
    (pop_best_task (some [QLine.text "not a task"])).newFile =
        some [QLine.text "not a task"] ∧
      (pop_best_task (some [QLine.text "not a task"])).best = none ∧
      (pop_best_task (some [QLine.text "not a task"])).stdout = [] :=
  pop_no_valid_no_side_effect _ (Or.inr ⟨_, rfl, by decide⟩)

/-- C8: `get_min_priority` never mutates the queue file, and prints the
sentinel 99999 whenever the file is missing or has no parseable record. -/
theorem get_min_no_mutation_sentinel (file : Option (List QLine)) :
    (get_min_priority file).newFile = file ∧
      ((file = none ∨ ∃ lines, file = some lines ∧ lines.filterMap parse_line = []) →
        (get_min_priority file).stdout = [toString (99999 : Int)]) := by
  constructor
  · cases file <;> rfl
  · rintro (rfl | ⟨lines, rfl, hval⟩)
    · rfl
    · simp only [get_min_priority]
      rw [minScan_no_valid hval]

/-- C8 witness: a fully-unparseable queue yields the sentinel, unchanged. -/
theorem get_min_no_mutation_sentinel_witness :
    (get_min_priority (some [QLine.text "###"])).newFile = some [QLine.text "###"] ∧
      (get_min_priority (some [QLine.text "###"])).stdout = [toString (99999 : Int)] :=
  ⟨(get_min_no_mutation_sentinel _).1,
    (get_min_no_mutation_sentinel _).2 (Or.inr ⟨_, rfl, by decide⟩)⟩

/-- C9: after a successful pop the queue file consists exactly of the
remaining parseable records, every line a canonical structured re-encoding
that reparses to its record, ordered by ascending priority and stable
within equal priority; unparseable lines are not retained. -/
theorem pop_rewrite_canonical_sorted (lines : List QLine)
    (hne : lines.filterMap parse_line ≠ []) :
    ∃ b newLines, (pop_best_task (some lines)).best = some b ∧
      (pop_best_task (some lines)).newFile = some newLines ∧
      (∀ l ∈ newLines, ∃ t, l = QLine.structured (taskToObj t) ∧ parse_line l = some t) ∧
      newLines.length = (newLines.filterMap parse_line).length ∧
      (newLines.filterMap parse_line).Pairwise (fun a b => a.p ≤ b.p) ∧
      (b :: newLines.filterMap parse_line).Perm (lines.filterMap parse_line) ∧
      ∀ q : Int,
        ((newLines.filterMap parse_line).filter (fun t => decide (t.p = q))).Sublist
          ((lines.filterMap parse_line).filter (fun t => decide (t.p = q))) := by
  obtain ⟨b, rest, hsort, hpop⟩ := pop_some_spec lines hne
  refine ⟨b, rest.map (fun t => QLine.structured (taskToObj t)),
    by rw [hpop], by rw [hpop], ?_, ?_, ?_, ?_, ?_⟩
  · intro l hl
    obtain ⟨t, _ht, rfl⟩ := List.mem_map.mp hl
    exact ⟨t, rfl, parse_line_taskToObj t⟩
  · rw [filterMap_parse_map_structured, List.length_map]
  · rw [filterMap_parse_map_structured]
    have hs := sortTasks_sorted (lines.filterMap parse_line)
    rw [hsort] at hs
    exact hs.of_cons
  · rw [filterMap_parse_map_structured, ← hsort]
    exact sortTasks_perm _
  · intro q
    rw [filterMap_parse_map_structured]
    have h1 : (rest.filter (fun t => decide (t.p = q))).Sublist
        ((b :: rest).filter (fun t => decide (t.p = q))) :=
      (List.sublist_cons_self b rest).filter _
    rw [← hsort, sortTasks_filter] at h1
    exact h1

/-- C9 witness: on the demo queue. -/
theorem pop_rewrite_canonical_sorted_witness :
    ∃ b newLines, (pop_best_task (some demoLines)).best = some b ∧
      (pop_best_task (some demoLines)).newFile = some newLines ∧
      (∀ l ∈ newLines, ∃ t, l = QLine.structured (taskToObj t) ∧ parse_line l = some t) ∧
      newLines.length = (newLines.filterMap parse_line).length ∧
      (newLines.filterMap parse_line).Pairwise (fun a b => a.p ≤ b.p) ∧
      (b :: newLines.filterMap parse_line).Perm (demoLines.filterMap parse_line) ∧
      ∀ q : Int,
        ((newLines.filterMap parse_line).filter (fun t => decide (t.p = q))).Sublist
          ((demoLines.filterMap parse_line).filter (fun t => decide (t.p = q))) :=
  pop_rewrite_canonical_sorted demoLines (by decide)

/-- C10: a legacy positional line with exactly three colon-separated
fields `priority:grace:command` parses with the third field used as both
tag and command, so the tag equals the command string rather than the
default tag. -/
theorem parse_line_legacy_three_fields (s a b c : String) (pv gv : Int)
    (hsplit : pySplitColon3 (pyStrip s) = [a, b, c])
    (hp : pyInt a = some pv) (hg : pyInt b = some gv) :
    parse_line (QLine.text s) =
      some { p := pv, g := gv, t := c, wd := none, git := none, c := c } := by
  have hne : pyStrip s ≠ "" := by
    intro h0
    rw [h0] at hsplit
    simp [pySplitColon3, pySplitAux] at hsplit
  simp [parse_line, hne, hsplit, hp, hg]

/-- C10 witness: the line `5:60:echo hi` parses with tag and command both
equal to `echo hi`. -/
theorem parse_line_legacy_three_fields_witness :
    pySplitColon3 (pyStrip "5:60:echo hi") = ["5", "60", "echo hi"] ∧
      pyInt "5" = some 5 ∧ pyInt "60" = some 60 ∧
      parse_line (QLine.text "5:60:echo hi") =
        some { p := 5, g := 60, t := "echo hi", wd := none, git := none, c := "echo hi" } :=
  ⟨rfl, rfl, rfl, parse_line_legacy_three_fields _ _ _ _ _ _ rfl rfl rfl⟩

end TQ
